import Mathlib

/-!
# Verification of the calendar date-grid core of `iced_aw`

This file gives a shallow embedding of the calendar grid logic used by the
date-picker widget (`src/graphics/date_picker.rs`, functions `day_table` and
`day_labels`) and of the `Widget` size accessors of the pure color picker
(`src/pure/color_picker.rs`), and proves the specified properties about them.

The date arithmetic itself (`crate::core::date::position_to_day`,
`crate::core::date::WEEKDAY_LABELS`, days-in-month and week-row counting) lives
in `core/date.rs`, which is not part of the available sources; those
definitions are modelled from the specification (proleptic Gregorian calendar,
week starting on Sunday, so the leading offset is the Sunday-based weekday
index of the first day of the displayed month).
-/

/-- Modelled from the spec: standard Gregorian leap-year rule (divisible by 4,
except centuries unless divisible by 400).  The function `days_in_month` of the
missing `core/date.rs` needs it. -/
def is_leap_year (year : Nat) : Bool :=
  (year % 4 == 0 && year % 100 != 0) || year % 400 == 0

/-- Modelled from the spec: `daysInMonth(month, year)`, the number of days of a
month (1–12) of a year under the proleptic Gregorian calendar; part of the
missing `core/date.rs`.  Months outside 1–12 are invalid and mapped to 0. -/
def days_in_month (month year : Nat) : Nat :=
  match month with
  | 1 => 31
  | 2 => if is_leap_year year then 29 else 28
  | 3 => 31
  | 4 => 30
  | 5 => 31
  | 6 => 30
  | 7 => 31
  | 8 => 31
  | 9 => 30
  | 10 => 31
  | 11 => 30
  | 12 => 31
  | _ => 0

/-- Modelled from the spec: number of days of `year` that precede the first day
of `month`; auxiliary for the weekday computation of the missing
`core/date.rs`. -/
def days_before_month (month year : Nat) : Nat :=
  ((List.range (month - 1)).map (fun m => days_in_month (m + 1) year)).sum

/-- Modelled from the spec: number of days strictly before January 1 of `year`
in the proleptic Gregorian calendar (year 1 is the first supported year). -/
def days_before_year (year : Nat) : Nat :=
  365 * (year - 1) + (year - 1) / 4 - (year - 1) / 100 + (year - 1) / 400

/-- Modelled from the spec: `leadingOffset(month, year)`, the weekday index
(0 = Sunday, the first day of the week) of the first day of `month/year`.
January 1 of year 1 of the proleptic Gregorian calendar is a Monday, hence the
constant 1. -/
def leadingOffset (month year : Nat) : Nat :=
  (1 + days_before_year year + days_before_month month year) % 7

/-- Modelled from the spec: the body of `position_to_day` of the missing
`core/date.rs` once the cell offset has been computed.  Returns the day number
together with the integer month flag used by `day_table`
(`-1` = previous month, `0` = current month, `1` = next month). -/
def day_of_offset (offset : Int) (year month : Nat) : Int × Int :=
  if offset < 0 then
    (days_in_month (if month = 1 then 12 else month - 1)
        (if month = 1 then year - 1 else year) + offset + 1, -1)
  else if offset < (days_in_month month year : Int) then
    (offset + 1, 0)
  else
    (offset - (days_in_month month year : Int) + 1, 1)

/-- Modelled from the spec: `crate::core::date::position_to_day(x, y, year,
month)` as called by `day_table` — `x` is the column, `y` the row; the cell
offset is `y*7 + x - leadingOffset`. -/
def position_to_day (x y : Nat) (year month : Nat) : Int × Int :=
  day_of_offset ((y : Int) * 7 + (x : Int) - (leadingOffset month year : Int)) year month

/-- The three-way month membership of a grid cell, the intended semantics of
the integer flag returned by `position_to_day`. -/
inductive MonthMembership where
  | PreviousMonth
  | CurrentMonth
  | NextMonth
deriving DecidableEq, Repr

/-- Decodes the integer month flag of `position_to_day` into the three-way
membership tag of the spec. -/
def membership_of_flag (flag : Int) : MonthMembership :=
  if flag < 0 then MonthMembership.PreviousMonth
  else if flag = 0 then MonthMembership.CurrentMonth
  else MonthMembership.NextMonth

/-- The spec's `resolveCell(row, column, year, month)`: `position_to_day` with
the flag decoded into a membership tag. -/
def resolveCell (row column year month : Nat) : Int × MonthMembership :=
  ((position_to_day column row year month).1,
    membership_of_flag (position_to_day column row year month).2)

/-- Modelled from the spec: `weekRowCount(year, month) =
ceil((leadingOffset + daysInMonth) / 7)`; part of the missing
`core/date.rs`. -/
def weekRowCount (year month : Nat) : Nat :=
  (leadingOffset month year + days_in_month month year + 6) / 7

/-- From `day_table` (src/graphics/date_picker.rs:311): a day cell is selected
iff `date.day() == number && is_in_month == 0`. -/
def day_cell_selected (day x y year month : Nat) : Bool :=
  (day : Int) == (position_to_day x y year month).1 &&
    (position_to_day x y year month).2 == 0

/-- From `day_table` (src/graphics/date_picker.rs:339-343): the text color of a
day cell is the full `text_color` iff `is_in_month == 0`, otherwise the
`text_attenuated_color`. -/
def day_cell_text_color {α : Type} (text_color text_attenuated_color : α)
    (x y year month : Nat) : α :=
  if (position_to_day x y year month).2 == 0 then text_color
  else text_attenuated_color

/-- Modelled from the spec: `crate::core::date::WEEKDAY_LABELS`, the constant
header row of 7 short strings, week starting on Sunday. -/
def WEEKDAY_LABELS : List String :=
  ["Su", "Mo", "Tu", "We", "Th", "Fr", "Sa"]

/-- The spec's `weekdayLabels()` operation: returns the constant header row. -/
def weekdayLabels : List String := WEEKDAY_LABELS

/-- From `day_labels` (src/graphics/date_picker.rs:269): the rendered content
of header cell `i` is `format!("{}", WEEKDAY_LABELS[i])`. -/
def day_label_content (i : Nat) : String :=
  WEEKDAY_LABELS.getD i ""

/-- Modelled from the spec: the single error kind of the core. -/
inductive DateError where
  | InvalidDate
deriving DecidableEq, Repr

/-- Modelled from the spec: a `(year, month, day)` calendar date triple. -/
structure CalendarDate where
  year : Nat
  month : Nat
  day : Nat
deriving DecidableEq, Repr

/-- Modelled from the spec: calendar validity of a `(year, month, day)` triple
— year at least 1, month in 1–12 and a day that exists in that month. -/
def date_is_valid (year month day : Nat) : Bool :=
  1 ≤ year && 1 ≤ month && month ≤ 12 && 1 ≤ day && day ≤ days_in_month month year

/-- Modelled from the spec: constructing the input date fails with
`InvalidDate` exactly on calendar-invalid triples. -/
def mk_date (year month day : Nat) : Except DateError CalendarDate :=
  if date_is_valid year month day then Except.ok ⟨year, month, day⟩
  else Except.error DateError.InvalidDate

/-- The `iced` `Length` type as far as the size accessors are concerned. -/
inductive Length where
  | Fill
  | FillPortion (factor : Nat)
  | Shrink
  | Units (units : Nat)
deriving DecidableEq, Repr

/-- The width and height an underlay widget reports. -/
structure UnderlayWidget where
  width : Length
  height : Length
deriving DecidableEq, Repr

/-- From `Widget::width` for `ColorPicker` (src/pure/color_picker.rs:127-129):
delegates to the underlay's width. -/
def ColorPicker.width (underlay : UnderlayWidget) : Length :=
  underlay.width

/-- From `Widget::height` for `ColorPicker` (src/pure/color_picker.rs:131-133):
delegates to the underlay's `width()` (not its height). -/
def ColorPicker.height (underlay : UnderlayWidget) : Length :=
  underlay.width

/-! ## Helper lemmas -/

/-- The leading offset is a weekday index, hence below 7. -/
lemma leadingOffset_lt_seven (month year : Nat) : leadingOffset month year < 7 :=
  Nat.mod_lt _ (by decide)

/-- For a month in 1–12 the day count is between 28 and 31. -/
lemma days_in_month_bounds (month year : Nat) (h1 : 1 ≤ month) (h2 : month ≤ 12) :
    28 ≤ days_in_month month year ∧ days_in_month month year ≤ 31 := by
  interval_cases month <;> simp only [days_in_month] <;>
    first
      | omega
      | split_ifs <;> omega

/-- Coverage: the grid of `weekRowCount` rows of 7 cells holds the leading
offset plus every day of the month. -/
lemma grid_covers (year month : Nat) :
    leadingOffset month year + days_in_month month year ≤ weekRowCount year month * 7 := by
  unfold weekRowCount
  omega

/-! ## Claims -/

/-- Claim C4: `days_in_month` implements the standard Gregorian leap-year rule
for February, and the four concrete checks hold. -/
theorem days_in_month_leap_rule :
    (∀ year : Nat,
      days_in_month 2 year =
        if (year % 4 = 0 ∧ year % 100 ≠ 0) ∨ year % 400 = 0 then 29 else 28) ∧
    days_in_month 2 2000 = 29 ∧ days_in_month 2 1900 = 28 ∧
    days_in_month 2 2024 = 29 ∧ days_in_month 2 2023 = 28 := by
  refine ⟨fun year => ?_, by decide, by decide, by decide, by decide⟩
  simp only [days_in_month, is_leap_year, Bool.or_eq_true, Bool.and_eq_true,
    beq_iff_eq, bne_iff_ne, ne_eq]

/-- Claim C7: with a Sunday-starting week, March 1, 2024 is a Friday
(leading offset 5), so cell (row 0, column 0) of March 2024 resolves to
February 25, 2024 in the previous month. -/
theorem resolveCell_march_2024 :
    leadingOffset 3 2024 = 5 ∧ days_in_month 2 2024 = 29 ∧
    resolveCell 0 0 2024 3 = (25, MonthMembership.PreviousMonth) := by
  decide

/-- Claim C9: the weekday labels are a constant sequence of exactly 7 pairwise
distinct strings, and the rendered header labels are exactly
`WEEKDAY_LABELS[0..6]` in index order. -/
theorem weekday_labels_spec :
    weekdayLabels = WEEKDAY_LABELS ∧ weekdayLabels.length = 7 ∧
    weekdayLabels.Nodup ∧
    (List.range 7).map day_label_content = weekdayLabels := by
  refine ⟨rfl, rfl, ?_, ?_⟩ <;> decide

/-- Claim C10: `ColorPicker`'s reported height equals its underlay's width, so
whenever the underlay's width and height differ the picker's height differs
from the underlay's height, while its width matches the underlay's width. -/
theorem color_picker_height_is_width (u : UnderlayWidget)
    (h : u.width ≠ u.height) :
    ColorPicker.height u ≠ u.height ∧ ColorPicker.width u = u.width :=
  ⟨h, rfl⟩

/-- Witness for C10 at a concrete underlay with `Fill` width and `Shrink`
height. -/
theorem color_picker_height_is_width_witness :
    ColorPicker.height ⟨Length.Fill, Length.Shrink⟩ ≠ Length.Shrink ∧
    ColorPicker.width ⟨Length.Fill, Length.Shrink⟩ = Length.Fill :=
  color_picker_height_is_width ⟨Length.Fill, Length.Shrink⟩ (by decide)

/-- Claim C8: constructing the input date succeeds on every calendar-valid
triple, fails exactly on invalid ones, and the only error kind is
`InvalidDate`. -/
theorem mk_date_error_spec (year month day : Nat) :
    (date_is_valid year month day = true →
      mk_date year month day = Except.ok ⟨year, month, day⟩) ∧
    (date_is_valid year month day = false →
      mk_date year month day = Except.error DateError.InvalidDate) ∧
    (∀ e : DateError, e = DateError.InvalidDate) := by
  refine ⟨fun h => ?_, fun h => ?_, fun e => ?_⟩
  · simp [mk_date, h]
  · simp [mk_date, h]
  · cases e; rfl

/-- Witness for C8 at February 29, 2024 (valid) — the constructor succeeds. -/
theorem mk_date_error_spec_witness :
    mk_date 2024 2 29 = Except.ok ⟨2024, 2, 29⟩ :=
  (mk_date_error_spec 2024 2 29).1 (by decide)

/-- The month flag returned by `position_to_day` is `-1`, `0` or `1`. -/
lemma position_flag_cases (x y year month : Nat) :
    (position_to_day x y year month).2 = -1 ∨
    (position_to_day x y year month).2 = 0 ∨
    (position_to_day x y year month).2 = 1 := by
  unfold position_to_day day_of_offset
  split_ifs <;> simp

/-- Claim C6: the text emphasis of a day cell is determined by its membership —
the full-opacity `text_color` exactly for `CurrentMonth` cells, the
`text_attenuated_color` for `PreviousMonth` and `NextMonth` cells. -/
theorem day_cell_text_color_spec {α : Type} (text_color text_attenuated_color : α)
    (x y year month : Nat) :
    day_cell_text_color text_color text_attenuated_color x y year month =
      if (resolveCell y x year month).2 = MonthMembership.CurrentMonth
      then text_color else text_attenuated_color := by
  rcases position_flag_cases x y year month with h | h | h <;>
    simp [day_cell_text_color, resolveCell, membership_of_flag, h]

/-- Claim C3 (amended): `weekRowCount` is the ceiling of
`(leadingOffset + daysInMonth) / 7`, always 4, 5 or 6 rows, covers the month
and is minimal. -/
theorem weekRowCount_spec (year month : Nat)
    (hm1 : 1 ≤ month) (hm2 : month ≤ 12) (hy : 1 ≤ year) :
    weekRowCount year month =
      (leadingOffset month year + days_in_month month year + 6) / 7 ∧
    (4 ≤ weekRowCount year month ∧ weekRowCount year month ≤ 6) ∧
    days_in_month month year + leadingOffset month year ≤ weekRowCount year month * 7 ∧
    (weekRowCount year month - 1) * 7 <
      days_in_month month year + leadingOffset month year := by
  have hL := leadingOffset_lt_seven month year
  have hD := days_in_month_bounds month year hm1 hm2
  unfold weekRowCount
  omega

/-- Witness for C3 at March 2024 (leading offset 5, 31 days, 6 rows). -/
theorem weekRowCount_spec_witness :
    4 ≤ weekRowCount 2024 3 ∧ weekRowCount 2024 3 ≤ 6 :=
  (weekRowCount_spec 2024 3 (by decide) (by decide) (by decide)).2.1

/-- Counterexample for C3 as stated: February 2026 starts on a Sunday
(leading offset 0) and has 28 days, so `weekRowCount` is 4, not 5 or 6. -/
theorem weekRowCount_not_always_five_or_six :
    weekRowCount 2026 2 = 4 ∧
    ¬(weekRowCount 2026 2 = 5 ∨ weekRowCount 2026 2 = 6) := by
  decide

/-- Claim C1: `resolveCell` computes `offset = row*7 + column - leadingOffset`
and returns the previous month's trailing day for a negative offset (with the
year decremented across January), the current month's day `offset + 1` for an
offset below the month length, and the next month's leading day otherwise. -/
theorem resolveCell_contract (row column year month : Nat)
    (hc : column ≤ 6) (hm1 : 1 ≤ month) (hm2 : month ≤ 12) (hy : 1 ≤ year) :
    ((row : Int) * 7 + (column : Int) - (leadingOffset month year : Int) < 0 →
      resolveCell row column year month =
        ((days_in_month (if month = 1 then 12 else month - 1)
            (if month = 1 then year - 1 else year) : Int) +
          ((row : Int) * 7 + (column : Int) - (leadingOffset month year : Int)) + 1,
         MonthMembership.PreviousMonth)) ∧
    (0 ≤ (row : Int) * 7 + (column : Int) - (leadingOffset month year : Int) →
      (row : Int) * 7 + (column : Int) - (leadingOffset month year : Int) <
        (days_in_month month year : Int) →
      resolveCell row column year month =
        ((row : Int) * 7 + (column : Int) - (leadingOffset month year : Int) + 1,
         MonthMembership.CurrentMonth)) ∧
    ((days_in_month month year : Int) ≤
        (row : Int) * 7 + (column : Int) - (leadingOffset month year : Int) →
      resolveCell row column year month =
        ((row : Int) * 7 + (column : Int) - (leadingOffset month year : Int) -
          (days_in_month month year : Int) + 1,
         MonthMembership.NextMonth)) := by
  refine ⟨fun h => ?_, fun h0 h1 => ?_, fun h => ?_⟩ <;>
    simp only [resolveCell, position_to_day, day_of_offset, membership_of_flag] <;>
    split_ifs <;>
    simp_all <;>
    omega

/-- Witness for C1 at cell (0,0) of January 2024: the offset is negative and
the cell shows a trailing day of December 2023. -/
theorem resolveCell_contract_witness :
    resolveCell 0 0 2024 1 =
      ((days_in_month 12 2023 : Int) +
        ((0 : Int) * 7 + (0 : Int) - (leadingOffset 1 2024 : Int)) + 1,
       MonthMembership.PreviousMonth) :=
  (resolveCell_contract 0 0 2024 1 (by decide) (by decide) (by decide)
    (by decide)).1 (by decide)

/-- The row-major cell enumeration of `day_table`: scanning the grid of
`weekRowCount` rows of 7 columns in row-major order and keeping the day number
of every cell whose flag marks the current month. -/
def current_month_days (year month : Nat) : List Int :=
  (List.range (weekRowCount year month * 7)).filterMap (fun i =>
    if (position_to_day (i % 7) (i / 7) year month).2 == 0 then
      some (position_to_day (i % 7) (i / 7) year month).1
    else none)

/-- Number of grid cells carrying day number 1 with the current-month flag. -/
def first_day_cell_count (year month : Nat) : Nat :=
  (List.range (weekRowCount year month * 7)).countP (fun i =>
    (position_to_day (i % 7) (i / 7) year month).1 == 1 &&
      (position_to_day (i % 7) (i / 7) year month).2 == 0)

/-- Number of grid cells that `day_table` marks as selected for a given day. -/
def selected_cell_count (day year month : Nat) : Nat :=
  (List.range (weekRowCount year month * 7)).countP (fun i =>
    day_cell_selected day (i % 7) (i / 7) year month)

/-- Decomposing a row-major cell index: the cell at row `i / 7`, column
`i % 7` has offset `i - leadingOffset`. -/
lemma position_to_day_linear (i year month : Nat) :
    position_to_day (i % 7) (i / 7) year month =
      day_of_offset ((i : Int) - (leadingOffset month year : Int)) year month := by
  unfold position_to_day
  congr 2
  push_cast
  omega

/-- A cell contributes a current-month day exactly when its index lies in the
window `[leadingOffset, leadingOffset + daysInMonth)`, and the day it
contributes is `index - leadingOffset + 1`. -/
lemma current_cell_iff (i year month : Nat) :
    (if (position_to_day (i % 7) (i / 7) year month).2 == 0 then
       some (position_to_day (i % 7) (i / 7) year month).1
     else none) =
      (if leadingOffset month year ≤ i ∧
          i < leadingOffset month year + days_in_month month year
       then some ((i : Int) - (leadingOffset month year : Int) + 1)
       else none) := by
  rw [position_to_day_linear]
  unfold day_of_offset
  split_ifs <;> simp_all <;> omega

/-- `filterMap` by a function that is `some ∘ g` on the whole list is `map`. -/
lemma filterMap_eq_map_of_forall {α β : Type} (l : List α) (f : α → Option β)
    (g : α → β) (h : ∀ a ∈ l, f a = some (g a)) : l.filterMap f = l.map g := by
  induction l with
  | nil => rfl
  | cons a t ih =>
    rw [List.filterMap_cons, h a (List.mem_cons_self a t), List.map_cons,
      ih (fun b hb => h b (List.mem_cons_of_mem a hb))]

/-- Filtering the window `[L, L + D)` out of `range N` and shifting it down
yields exactly the days `1, …, D`. -/
lemma filterMap_range_window (N L D : Nat) (h : L + D ≤ N) :
    (List.range N).filterMap
        (fun i => if L ≤ i ∧ i < L + D
          then some ((i : Int) - (L : Int) + 1) else none) =
      (List.range D).map (fun d : Nat => (d : Int) + 1) := by
  obtain ⟨k, rfl⟩ : ∃ k, N = L + D + k := ⟨N - (L + D), by omega⟩
  rw [List.range_add, List.range_add, List.filterMap_append,
    List.filterMap_append, List.filterMap_map, List.filterMap_map]
  have h1 : (List.range L).filterMap
      (fun i => if L ≤ i ∧ i < L + D
        then some ((i : Int) - (L : Int) + 1) else none) = [] := by
    rw [List.filterMap_eq_nil_iff]
    intro a ha
    rw [List.mem_range] at ha
    rw [if_neg (by omega)]
  have h2 : (List.range D).filterMap
      ((fun i => if L ≤ i ∧ i < L + D
        then some ((i : Int) - (L : Int) + 1) else none) ∘ (L + ·)) =
      (List.range D).map (fun d : Nat => (d : Int) + 1) := by
    apply filterMap_eq_map_of_forall
    intro d hd
    rw [List.mem_range] at hd
    simp only [Function.comp_apply]
    rw [if_pos (by omega)]
    congr 1
    push_cast
    ring
  have h3 : (List.range k).filterMap
      ((fun i => if L ≤ i ∧ i < L + D
        then some ((i : Int) - (L : Int) + 1) else none) ∘ (L + D + ·)) = [] := by
    rw [List.filterMap_eq_nil_iff]
    intro a ha
    simp only [Function.comp_apply]
    rw [if_neg (by omega)]
  rw [h1, h2, h3, List.nil_append, List.append_nil]

/-- A predicate holding at exactly one point below `N` is counted once on
`range N`. -/
lemma countP_range_unique (p : Nat → Bool) (N t : Nat) (ht : t < N)
    (hp : ∀ i, p i = true ↔ i = t) : (List.range N).countP p = 1 := by
  induction N with
  | zero => omega
  | succ n ih =>
    rw [List.range_succ, List.countP_append]
    rcases Nat.lt_or_ge t n with h | h
    · rw [ih h]
      have hn : ¬p n = true := by rw [hp]; omega
      simp [List.countP_cons, hn]
    · have hz : (List.range n).countP p = 0 := by
        rw [List.countP_eq_zero]
        intro a ha
        rw [List.mem_range] at ha
        rw [hp]
        omega
      have hn : p n = true := by rw [hp]; omega
      simp [hz, List.countP_cons, hn]

/-- Claim C2: scanning the grid in row-major order and keeping the
current-month cells yields the day numbers `1, 2, …, daysInMonth` with no gaps
and no repeats, and day number 1 appears as a current-month cell in exactly one
grid cell. -/
theorem current_month_days_complete (year month : Nat)
    (hm1 : 1 ≤ month) (hm2 : month ≤ 12) (hy : 1 ≤ year) :
    current_month_days year month =
      (List.range (days_in_month month year)).map (fun d : Nat => (d : Int) + 1) ∧
    first_day_cell_count year month = 1 := by
  have hL := leadingOffset_lt_seven month year
  have hD := days_in_month_bounds month year hm1 hm2
  have hcov := grid_covers year month
  constructor
  · unfold current_month_days
    have hfun : (fun i =>
        if (position_to_day (i % 7) (i / 7) year month).2 == 0 then
          some (position_to_day (i % 7) (i / 7) year month).1
        else none) =
        (fun i => if leadingOffset month year ≤ i ∧
            i < leadingOffset month year + days_in_month month year
          then some ((i : Int) - (leadingOffset month year : Int) + 1)
          else none) :=
      funext fun i => current_cell_iff i year month
    rw [hfun]
    exact filterMap_range_window _ _ _ (by omega)
  · unfold first_day_cell_count
    apply countP_range_unique _ _ (leadingOffset month year) (by omega)
    intro i
    rw [position_to_day_linear]
    unfold day_of_offset
    split_ifs <;> simp <;> omega

/-- Witness for C2 at February 2024: the 29 days appear in order. -/
theorem current_month_days_complete_witness :
    current_month_days 2024 2 =
      (List.range (days_in_month 2 2024)).map (fun d : Nat => (d : Int) + 1) :=
  (current_month_days_complete 2024 2 (by decide) (by decide) (by decide)).1

/-- Claim C5: a day cell is selected iff its day number equals the input
date's day and its month flag marks the current month, and for every valid
input date exactly one cell of the grid is selected. -/
theorem day_cell_selected_spec (year month day : Nat)
    (hm1 : 1 ≤ month) (hm2 : month ≤ 12) (hy : 1 ≤ year)
    (hd1 : 1 ≤ day) (hd2 : day ≤ days_in_month month year) :
    (∀ x y : Nat, day_cell_selected day x y year month = true ↔
      ((position_to_day x y year month).1 = (day : Int) ∧
        (resolveCell y x year month).2 = MonthMembership.CurrentMonth)) ∧
    selected_cell_count day year month = 1 := by
  have hL := leadingOffset_lt_seven month year
  have hD := days_in_month_bounds month year hm1 hm2
  have hcov := grid_covers year month
  constructor
  · intro x y
    rcases position_flag_cases x y year month with h | h | h
    · simp [day_cell_selected, resolveCell, membership_of_flag, h]
    · simp [day_cell_selected, resolveCell, membership_of_flag, h]
      exact eq_comm
    · simp [day_cell_selected, resolveCell, membership_of_flag, h]
  · unfold selected_cell_count
    apply countP_range_unique _ _ (leadingOffset month year + (day - 1)) (by omega)
    intro i
    unfold day_cell_selected
    rw [position_to_day_linear]
    unfold day_of_offset
    split_ifs <;> simp <;> omega

/-- Witness for C5 at March 15, 2024: exactly one selected cell. -/
theorem day_cell_selected_spec_witness :
    selected_cell_count 15 2024 3 = 1 :=
  (day_cell_selected_spec 2024 3 15 (by decide) (by decide) (by decide)
    (by decide) (by decide)).2
